import Mathlib

/-!
Verification of the FitbitNonLocTcx core against its design description.

The Go source (main.go and data/data.go) is embedded shallowly:

* `convertTimestamp`       — main.go `convertTimestamp` (RFC-3339 parse, UTC
  shift by a duration, RFC-3339 format).  Go's `time.Duration` is modelled in
  whole seconds, since every call site passes a whole number of seconds
  (`0` and `time.Duration(d/1000)*time.Second`).
* `generateCodeVerifier`   — main.go `generateCodeVerifier`; the crypto/rand
  source is modelled as an oracle `Nat → Nat` giving each sampled index.
* `generateCodeChallenge`  — main.go `generateCodeChallenge`, with SHA-256 and
  base64url-without-padding implemented bit-for-bit over `Nat` bytes.
* `scopeStringBuilder`, `getAuthURL` — main.go; the random `state` produced by
  `generateRandomString` is passed as an explicit argument.
* `handleTokenReceived`    — main.go; the process-wide variables it touches
  (`token`, `stateRedir`, with `stateAuth` read-only) are an explicit
  `SessionState`, and invoking `fetchActivityData` is recorded as a flag.
* `XElem`, `injectActivityTcx` — the etree document and the TCX mutation of
  main.go `injectActivityTcx`; file writing, pretty-printing and the server
  shutdown that follow the mutation are outside the mutated tree.
-/

set_option maxRecDepth 4096

namespace FitbitTcx

instance {α β : Type} [DecidableEq α] [DecidableEq β] : DecidableEq (Except α β) :=
  fun a b =>
    match a, b with
    | .ok x, .ok y =>
      if h : x = y then isTrue (by rw [h]) else isFalse (fun c => h (by injection c))
    | .error x, .error y =>
      if h : x = y then isTrue (by rw [h]) else isFalse (fun c => h (by injection c))
    | .ok _, .error _ => isFalse (fun c => by injection c)
    | .error _, .ok _ => isFalse (fun c => by injection c)

/-! ## RFC-3339 timestamps (Go `time.Parse(time.RFC3339, ·)` / `Format`) -/

def isLeapYear (y : Int) : Bool :=
  (y % 4 == 0 && y % 100 != 0) || y % 400 == 0

def daysInMonth (y : Int) (m : Nat) : Nat :=
  if m = 2 then (if isLeapYear y then 29 else 28)
  else if m = 4 ∨ m = 6 ∨ m = 9 ∨ m = 11 then 30
  else 31

/-- Days since 1970-01-01 of a civil date (proleptic Gregorian). -/
def daysFromCivil (y : Int) (m d : Nat) : Int :=
  let yAdj : Int := if m ≤ 2 then y - 1 else y
  let era : Int := yAdj.fdiv 400
  let yoe : Int := yAdj - era * 400
  let mp : Int := if m > 2 then (m : Int) - 3 else (m : Int) + 9
  let doy : Int := (153 * mp + 2).fdiv 5 + (d : Int) - 1
  let doe : Int := yoe * 365 + yoe.fdiv 4 - yoe.fdiv 100 + doy
  era * 146097 + doe - 719468

/-- Civil date (year, month, day) of a count of days since 1970-01-01. -/
def civilFromDays (z0 : Int) : Int × Int × Int :=
  let z : Int := z0 + 719468
  let era : Int := z.fdiv 146097
  let doe : Int := z.fmod 146097
  let yoe : Int := (doe - doe.fdiv 1460 + doe.fdiv 36524 - doe.fdiv 146096).fdiv 365
  let y : Int := yoe + era * 400
  let doy : Int := doe - (365 * yoe + yoe.fdiv 4 - yoe.fdiv 100)
  let mp : Int := (5 * doy + 2).fdiv 153
  let d : Int := doy - (153 * mp + 2).fdiv 5 + 1
  let m : Int := if mp < 10 then mp + 3 else mp - 9
  (if m ≤ 2 then y + 1 else y, m, d)

def digitVal (c : Char) : Option Nat :=
  if '0' ≤ c ∧ c ≤ '9' then some (c.toNat - 48) else none

def parseDigits : Nat → Nat → List Char → Option (Nat × List Char)
  | 0, acc, cs => some (acc, cs)
  | n + 1, acc, c :: cs =>
    match digitVal c with
    | some d => parseDigits n (acc * 10 + d) cs
    | none => none
  | _ + 1, _, [] => none

def expectChar (ch : Char) : List Char → Option (List Char)
  | c :: cs => if c = ch then some cs else none
  | [] => none

/-- Optional fractional-seconds part `.d+`; Go's `time.Parse` accepts it even
though the RFC3339 layout string has none, and drops it from whole-second
arithmetic and from `Format(time.RFC3339)` output. -/
def skipFrac : List Char → Option (List Char)
  | '.' :: cs =>
    match cs with
    | c :: _ => if (digitVal c).isSome then some (cs.dropWhile (fun x => (digitVal x).isSome)) else none
    | [] => none
  | cs => some cs

/-- Offset part of the layout `Z07:00`: a literal `Z` or `±hh:mm`, returned in
seconds. -/
def parseOffset : List Char → Option (Int × List Char)
  | 'Z' :: cs => some (0, cs)
  | c :: cs =>
    if c = '+' ∨ c = '-' then
      match parseDigits 2 0 cs with
      | some (oh, cs1) =>
        match expectChar ':' cs1 with
        | some cs2 =>
          match parseDigits 2 0 cs2 with
          | some (om, cs3) =>
            if oh ≤ 23 ∧ om ≤ 59 then
              some (if c = '-' then -((oh : Int) * 3600 + om * 60) else (oh : Int) * 3600 + om * 60, cs3)
            else none
          | none => none
        | none => none
      | none => none
    else none
  | [] => none

/-- Strict RFC-3339 parse, as Go `time.Parse(time.RFC3339, s)`: full-date `T`
partial-time offset, nothing trailing; returns the Unix epoch second. -/
def rfc3339Parse (s : String) : Option Int :=
  match parseDigits 4 0 s.data with
  | none => none
  | some (y, cs) =>
  match expectChar '-' cs with
  | none => none
  | some cs =>
  match parseDigits 2 0 cs with
  | none => none
  | some (mo, cs) =>
  match expectChar '-' cs with
  | none => none
  | some cs =>
  match parseDigits 2 0 cs with
  | none => none
  | some (d, cs) =>
  match expectChar 'T' cs with
  | none => none
  | some cs =>
  match parseDigits 2 0 cs with
  | none => none
  | some (h, cs) =>
  match expectChar ':' cs with
  | none => none
  | some cs =>
  match parseDigits 2 0 cs with
  | none => none
  | some (mi, cs) =>
  match expectChar ':' cs with
  | none => none
  | some cs =>
  match parseDigits 2 0 cs with
  | none => none
  | some (se, cs) =>
  match skipFrac cs with
  | none => none
  | some cs =>
  match parseOffset cs with
  | none => none
  | some (off, cs) =>
  if cs.isEmpty && (1 ≤ mo && mo ≤ 12) && (1 ≤ d && d ≤ daysInMonth (y : Int) mo)
      && h ≤ 23 && mi ≤ 59 && se ≤ 59 then
    some (daysFromCivil (y : Int) mo d * 86400 + (h : Int) * 3600 + (mi : Int) * 60 + (se : Int) - off)
  else none

def pad2 (n : Int) : String :=
  if n < 10 then "0" ++ toString n else toString n

def pad4 (n : Int) : String :=
  if n < 10 then "000" ++ toString n
  else if n < 100 then "00" ++ toString n
  else if n < 1000 then "0" ++ toString n
  else toString n

/-- `Format(time.RFC3339)` of a UTC instant given as a Unix epoch second. -/
def formatRFC3339UTC (epoch : Int) : String :=
  let days := epoch.fdiv 86400
  let rem := epoch.fmod 86400
  match civilFromDays days with
  | (y, m, d) =>
    pad4 y ++ "-" ++ pad2 m ++ "-" ++ pad2 d ++ "T" ++ pad2 (rem.fdiv 3600) ++ ":"
      ++ pad2 (rem.fdiv 60 % 60) ++ ":" ++ pad2 (rem % 60) ++ "Z"

/-- main.go `convertTimestamp`: parse the timestamp as RFC-3339, shift it by
`addSecond` (Go passes a `time.Duration`; every call site passes whole
seconds, modelled as an `Int` count of seconds), and format the result in
UTC. A failed parse returns the parse error and an empty string result. -/
def convertTimestamp (timeStamp : String) (addSecond : Int) : Except String String :=
  match rfc3339Parse timeStamp with
  | none => .error ("parsing time " ++ timeStamp ++ " as RFC3339 failed")
  | some t => .ok (formatRFC3339UTC (t + addSecond))

/-! ## PKCE verifier and challenge (main.go `generateCodeVerifier`,
`generateCodeChallenge`) -/

/-- The 66-character unreserved alphabet `rfc3986Chars` of main.go. -/
def rfc3986Chars : List Char :=
  "ABCDEFGHIJKLMNOPQRSTUVWXYZabcdefghijklmnopqrstuvwxyz0123456789-._~".data

/-- main.go `generateCodeVerifier`.  `crypto/rand.Int(reader, 66)` is modelled
by an oracle giving the sampled number for each position; the code's uniform
draw below `len(rfc3986Chars)` is the oracle's value reduced `% 66`. -/
def generateCodeVerifier (length : Int) (randOracle : Nat → Nat) : Except String String :=
  if length < 43 || length > 128 then
    .error "code verifier length must be between 43 and 128 characters"
  else
    .ok (String.mk ((List.range length.toNat).map
      (fun i => rfc3986Chars.getD (randOracle i % 66) 'A')))

/-! SHA-256 over byte lists (Go `crypto/sha256.Sum256`), on `Nat` with all
words reduced modulo `2^32`. -/

def w32 (x : Nat) : Nat := x % 4294967296

/-- Right rotation of a 32-bit word (argument below `2^32`). -/
def rotr32 (k x : Nat) : Nat := x / 2 ^ k + x % 2 ^ k * 2 ^ (32 - k)

def ch32 (e f g : Nat) : Nat := (e &&& f) ^^^ ((e ^^^ 4294967295) &&& g)

def maj32 (a b c : Nat) : Nat := (a &&& b) ^^^ (a &&& c) ^^^ (b &&& c)

def bigSigma0 (a : Nat) : Nat := rotr32 2 a ^^^ rotr32 13 a ^^^ rotr32 22 a

def bigSigma1 (e : Nat) : Nat := rotr32 6 e ^^^ rotr32 11 e ^^^ rotr32 25 e

def smallSigma0 (x : Nat) : Nat := rotr32 7 x ^^^ rotr32 18 x ^^^ x / 8

def smallSigma1 (x : Nat) : Nat := rotr32 17 x ^^^ rotr32 19 x ^^^ x / 1024

def sha256K : List Nat :=
  [1116352408, 1899447441, 3049323471, 3921009573, 961987163,
   1508970993, 2453635748, 2870763221, 3624381080, 310598401,
   607225278, 1426881987, 1925078388, 2162078206, 2614888103,
   3248222580, 3835390401, 4022224774, 264347078, 604807628,
   770255983, 1249150122, 1555081692, 1996064986, 2554220882,
   2821834349, 2952996808, 3210313671, 3336571891, 3584528711,
   113926993, 338241895, 666307205, 773529912, 1294757372,
   1396182291, 1695183700, 1986661051, 2177026350, 2456956037,
   2730485921, 2820302411, 3259730800, 3345764771, 3516065817,
   3600352804, 4094571909, 275423344, 430227734, 506948616,
   659060556, 883997877, 958139571, 1322822218, 1537002063,
   1747873779, 1955562222, 2024104815, 2227730452, 2361852424,
   2428436474, 2756734187, 3204031479, 3329325298]

def sha256H0 : List Nat :=
  [1779033703, 3144134277, 1013904242, 2773480762, 1359893119,
   2600822924, 528734635, 1541459225]

/-- Big-endian 32-bit word of four bytes of a block. -/
def beWord (block : List Nat) (i : Nat) : Nat :=
  block.getD i 0 * 16777216 + block.getD (i + 1) 0 * 65536
    + block.getD (i + 2) 0 * 256 + block.getD (i + 3) 0

def extendW (w : List Nat) : List Nat :=
  w ++ [w32 (smallSigma1 (w.getD (w.length - 2) 0) + w.getD (w.length - 7) 0
    + smallSigma0 (w.getD (w.length - 15) 0) + w.getD (w.length - 16) 0)]

def sha256Schedule (block : List Nat) : List Nat :=
  (List.range 48).foldl (fun w _ => extendW w)
    ((List.range 16).map (fun i => beWord block (4 * i)))

def sha256Round (st : List Nat) (kw : Nat) : List Nat :=
  match st with
  | [a, b, c, d, e, f, g, h] =>
    let t1 := h + bigSigma1 e + ch32 e f g + kw
    let t2 := bigSigma0 a + maj32 a b c
    [w32 (t1 + t2), a, b, c, w32 (d + t1), e, f, g]
  | other => other

def sha256Compress (hs block : List Nat) : List Nat :=
  let w := sha256Schedule block
  let st := (List.range 64).foldl
    (fun st t => sha256Round st (w32 (sha256K.getD t 0 + w.getD t 0))) hs
  (List.range 8).map (fun i => w32 (hs.getD i 0 + st.getD i 0))

/-- Merkle–Damgård padding: `0x80`, zeros, 64-bit big-endian bit length, to a
multiple of 64 bytes. -/
def sha256Pad (msg : List Nat) : List Nat :=
  let bitLen := msg.length * 8
  msg ++ [128] ++ List.replicate ((119 - msg.length % 64) % 64) 0
    ++ (List.range 8).map (fun i => bitLen / 2 ^ (8 * (7 - i)) % 256)

/-- Compress a padded message block by block; `fuel` is the block count. -/
def sha256Blocks (fuel : Nat) (hs msg : List Nat) : List Nat :=
  match fuel with
  | 0 => hs
  | n + 1 => sha256Blocks n (sha256Compress hs (msg.take 64)) (msg.drop 64)

/-- SHA-256 digest (32 bytes) of a byte list. -/
def sha256 (msg : List Nat) : List Nat :=
  let padded := sha256Pad msg
  (sha256Blocks (padded.length / 64) sha256H0 padded).flatMap
    (fun h => [h / 16777216 % 256, h / 65536 % 256, h / 256 % 256, h % 256])

/-- UTF-8 encoding of a Unicode code point (Go `[]byte(string)`). -/
def utf8EncodeChar (c : Nat) : List Nat :=
  if c < 128 then [c]
  else if c < 2048 then [192 + c / 64, 128 + c % 64]
  else if c < 65536 then [224 + c / 4096, 128 + c / 64 % 64, 128 + c % 64]
  else [240 + c / 262144, 128 + c / 4096 % 64, 128 + c / 64 % 64, 128 + c % 64]

def strBytes (s : String) : List Nat :=
  (s.data.map (fun c => utf8EncodeChar c.toNat)).flatten

/-- `base64.URLEncoding.WithPadding(base64.NoPadding)` of Go. -/
def b64urlChars : List Char :=
  "ABCDEFGHIJKLMNOPQRSTUVWXYZabcdefghijklmnopqrstuvwxyz0123456789-_".data

def base64urlNoPadChars : List Nat → List Char
  | [] => []
  | [a] => [b64urlChars.getD (a / 4) 'A', b64urlChars.getD (a % 4 * 16) 'A']
  | [a, b] => [b64urlChars.getD (a / 4) 'A', b64urlChars.getD (a % 4 * 16 + b / 16) 'A',
               b64urlChars.getD (b % 16 * 4) 'A']
  | a :: b :: c :: rest =>
    b64urlChars.getD (a / 4) 'A' :: b64urlChars.getD (a % 4 * 16 + b / 16) 'A' ::
    b64urlChars.getD (b % 16 * 4 + c / 64) 'A' :: b64urlChars.getD (c % 64) 'A' ::
    base64urlNoPadChars rest

def base64urlEncode (bytes : List Nat) : String :=
  String.mk (base64urlNoPadChars bytes)

/-- main.go `generateCodeChallenge`: empty verifier is an error; otherwise the
base64url-no-padding encoding of the SHA-256 digest of the verifier's UTF-8
bytes. -/
def generateCodeChallenge (codeVerifier : String) : Except String String :=
  if codeVerifier = "" then .error "error: empty codeVerifier string"
  else .ok (base64urlEncode (sha256 (strBytes codeVerifier)))

/-! ## Authorization URL (main.go `getAuthURL`, `scopeStringBuilder`) -/

/-- The fields of `oauth2.Config` that `getAuthURL` reads. -/
structure OauthConfig where
  clientID : String
  redirectURL : String
  scopes : List String

/-- main.go `scopeStringBuilder`: join the scopes with `+`, stripping one
trailing separator when the result ends in `+`. -/
def scopeStringBuilder (scopes : List String) : String :=
  let s := scopes.foldl (fun acc x => acc ++ x ++ "+") ""
  if s.length > 0 && s.back == '+' then s.dropRight 1 else s

/-- main.go `getAuthURL`: the `fmt.Sprintf` interpolation, with the value of
`generateRandomString()` (the random `state`) passed explicitly. -/
def getAuthURL (codeChallenge : String) (ouathCfg : OauthConfig) (state : String) : String :=
  "https://www.fitbit.com/oauth2/authorize?response_type=token&client_id=" ++ ouathCfg.clientID
    ++ "&redirect_uri=" ++ ouathCfg.redirectURL
    ++ "&scope=" ++ scopeStringBuilder ouathCfg.scopes
    ++ "&code_challenge=" ++ codeChallenge
    ++ "&code_challenge_method=S256&state=" ++ state

def isUnreservedQueryChar (c : Char) : Bool :=
  ('A' ≤ c && c ≤ 'Z') || ('a' ≤ c && c ≤ 'z') || ('0' ≤ c && c ≤ '9') ||
  c == '-' || c == '_' || c == '.' || c == '~'

def hexDigitUpper (n : Nat) : Char := "0123456789ABCDEF".data.getD n '0'

/-- Modelled from the spec: "URL-encoded client id and redirect URL".  This is
Go's `net/url.QueryEscape` percent-encoding (the encoding the repository's
test literals use, e.g. `https%3A%2F%2Ftest.com%2Fredirect`), stated here
only to compare with what `getAuthURL` actually emits — main.go itself never
calls any escaping function. -/
def queryEscape (s : String) : String :=
  String.mk (s.data.flatMap (fun c =>
    if isUnreservedQueryChar c then [c]
    else if c == ' ' then ['+']
    else (utf8EncodeChar c.toNat).flatMap
      (fun b => ['%', hexDigitUpper (b / 16), hexDigitUpper (b % 16)])))

/-- Everything after the first occurrence of `sep`, if any. -/
def afterFirst (sep : Char) : List Char → Option (List Char)
  | [] => none
  | c :: cs => if c = sep then some cs else afterFirst sep cs

/-- Split on every occurrence of `sep`. -/
def splitListOn (sep : Char) : List Char → List (List Char)
  | [] => [[]]
  | c :: cs =>
    if c = sep then [] :: splitListOn sep cs
    else
      match splitListOn sep cs with
      | [] => [[c]]
      | r :: rs => (c :: r) :: rs

/-- Split at the first occurrence of `sep`: the part before it and, when it
occurs, the part after it. -/
def breakAtFirst (sep : Char) : List Char → List Char × Option (List Char)
  | [] => ([], none)
  | c :: cs =>
    if c = sep then ([], some cs)
    else
      match breakAtFirst sep cs with
      | (pre, rest) => (c :: pre, rest)

/-- The raw (undecoded) value of the first occurrence of `key` among the
`&`-separated `key=value` pairs after the first `?` of a URL. -/
def rawQueryParam (url key : String) : Option String :=
  (splitListOn '&' ((afterFirst '?' url.data).getD [])).findSome? (fun kv =>
    match breakAtFirst '=' kv with
    | (k, v) => if String.mk k = key then some (String.mk (v.getD [])) else none)

/-! ## The completion handler (main.go `handleTokenReceived`) -/

/-- The process-wide variables `handleTokenReceived` touches: `stateAuth` is
only read, `token` and `stateRedir` are assigned from the request's query
parameters. -/
structure SessionState where
  stateAuth : String
  token : String
  stateRedir : String
deriving DecidableEq

/-- A handler run: the resulting globals, the strings written to the HTTP
response, and whether `fetchActivityData` was invoked.  `server.Shutdown`
(and the `done` signal) is reachable only through that call, at the end of
`injectActivityTcx`, so `fetchInvoked = false` means no listener shutdown
can be triggered by this request. -/
structure HandlerResult where
  state : SessionState
  responses : List String
  fetchInvoked : Bool
deriving DecidableEq

/-- main.go `handleTokenReceived`.  Note the order in the source: `token` and
`stateRedir` are assigned from the request before any validation happens. -/
def handleTokenReceived (s : SessionState) (reqToken reqState : String) : HandlerResult :=
  let s1 : SessionState := { s with token := reqToken, stateRedir := reqState }
  if reqToken ≠ "" then
    if s1.stateAuth = s1.stateRedir then
      { state := s1,
        responses := ["Token received and printed to the server console.",
                      "State matches with the one sent in auth URL."],
        fetchInvoked := true }
    else
      { state := s1,
        responses := ["Token received and printed to the server console.",
                      "The redirect request not originated from this app."],
        fetchInvoked := false }
  else
    { state := s1, responses := ["No token received."], fetchInvoked := false }

/-! ## The TCX document and its mutation (main.go `injectActivityTcx`) -/

/-- An etree element: name, attributes in order, character data, children in
order. -/
inductive XElem where
  | node (name : String) (attrs : List (String × String)) (text : String) (children : List XElem)

def XElem.name : XElem → String
  | .node n _ _ _ => n

def XElem.attrs : XElem → List (String × String)
  | .node _ a _ _ => a

def XElem.text : XElem → String
  | .node _ _ t _ => t

def XElem.children : XElem → List XElem
  | .node _ _ _ cs => cs

/-- etree `SelectElement`: the first child with the given tag. -/
def selectElement (nm : String) (e : XElem) : Option XElem :=
  e.children.find? (fun c => c.name == nm)

def getAttr (key : String) (e : XElem) : Option String :=
  (e.attrs.find? (fun a => a.1 == key)).map (fun a => a.2)

def setFirstAttr (key val : String) : List (String × String) → Option (List (String × String))
  | [] => none
  | (k, v) :: rest =>
    if k == key then some ((k, val) :: rest)
    else (setFirstAttr key val rest).map (fun r => (k, v) :: r)

/-- etree `SelectAttr(key).Value = val`; `none` models the nil dereference
panic when the attribute is absent. -/
def setAttr (key val : String) (e : XElem) : Option XElem :=
  match e with
  | .node n a t cs => (setFirstAttr key val a).map (fun a2 => .node n a2 t cs)

/-- etree `AddChild` / `CreateElement`: append to the end of the children. -/
def appendChild (c : XElem) (e : XElem) : XElem :=
  match e with
  | .node n a t cs => .node n a t (cs ++ [c])

/-- Rebuild the first child with the given tag through `f`; `none` when no
child matches (the Go code would dereference nil) or `f` fails. -/
def updateFirst (nm : String) (f : XElem → Option XElem) : List XElem → Option (List XElem)
  | [] => none
  | c :: cs =>
    if c.name == nm then (f c).map (fun c2 => c2 :: cs)
    else (updateFirst nm f cs).map (fun r => c :: r)

def modifyChild (nm : String) (f : XElem → Option XElem) (e : XElem) : Option XElem :=
  match e with
  | .node n a t cs => (updateFirst nm f cs).map (fun cs2 => XElem.node n a t cs2)

/-- The `SelectElement` chain of the Go code as a path rebuild: mutate the
element reached by taking the first child of each listed tag in turn. -/
def modifyPath : List String → (XElem → Option XElem) → XElem → Option XElem
  | [], f, e => f e
  | p :: ps, f, e => modifyChild p (modifyPath ps f) e

def selPath : List String → XElem → Option XElem
  | [], e => some e
  | p :: ps, e =>
    match selectElement p e with
    | none => none
    | some c => selPath ps c

def mkLeaf (nm tx : String) : XElem := .node nm [] tx []

/-- The Swim branch of `injectActivityTcx`, acting on the `Activity` element:
re-assert the `Sport` attribute, read the `Id` text, append a `Name` element
under `Creator`, and append the synthesized `Lap`.  `tss, _ :=` and
`tse, _ :=` in the source discard `convertTimestamp`'s error, leaving the
returned empty string; `TotalTimeSeconds` is
`strconv.FormatFloat(totalTime.Seconds(), 'f', -1, 64)`, which for the whole
second durations every caller passes prints the integer without a decimal
point, modelled as `toString`. -/
def swimPatch (actName : String) (totalTimeSeconds : Int) (distMeters calories : String)
    (act : XElem) : Option XElem :=
  match setAttr "Sport" actName act with
  | none => none
  | some act1 =>
  match selectElement "Id" act1 with
  | none => none
  | some idEl =>
  match modifyChild "Creator" (fun cr => some (appendChild (mkLeaf "Name" "Fitbit") cr)) act1 with
  | none => none
  | some act2 =>
    let tss := match convertTimestamp idEl.text 0 with | .ok v => v | .error _ => ""
    let tse := match convertTimestamp idEl.text totalTimeSeconds with | .ok v => v | .error _ => ""
    let track : XElem := .node "Track" [] ""
      [.node "Trackpoint" [] "" [mkLeaf "Time" tss, mkLeaf "DistanceMeters" "0"],
       .node "Trackpoint" [] "" [mkLeaf "Time" tse, mkLeaf "DistanceMeters" distMeters]]
    let lap : XElem := .node "Lap" [("StartTime", tss)] ""
      [mkLeaf "TotalTimeSeconds" (toString totalTimeSeconds),
       mkLeaf "DistanceMeters" distMeters,
       mkLeaf "Calories" calories,
       mkLeaf "Intensity" "Active",
       mkLeaf "TriggerMethod" "Manual",
       track]
    some (appendChild lap act2)

/-- main.go `injectActivityTcx` (tree mutation only; the pretty-printing,
file write and deferred server shutdown that follow operate on the final
tree and are outside it).  `none` models the nil-dereference panics of the
`SelectElement` chains. -/
def injectActivityTcx (xmlDoc : XElem) (actName : String) (totalTimeSeconds : Int)
    (distMeters calories : String) : Option XElem :=
  let afterSwim :=
    if actName == "Swim" then
      modifyPath ["TrainingCenterDatabase", "Activities", "Activity"]
        (swimPatch actName totalTimeSeconds distMeters calories) xmlDoc
    else some xmlDoc
  match afterSwim with
  | none => none
  | some doc1 =>
    if actName == "Treadmill" || actName == "Weights" then
      modifyPath ["TrainingCenterDatabase", "Activities", "Activity", "Creator"]
        (fun cr => some (appendChild (mkLeaf "Name" "Fitbit") cr)) doc1
    else some doc1

/-- main.go `fetchActivityData`:
`time.Duration(chosenActivity.Duration/1000)*time.Second` — the millisecond
duration is divided by 1000 with Go's truncating integer division, giving the
whole number of seconds handed to `injectActivityTcx`. -/
def msToDurationSeconds (ms : Int) : Int := ms.tdiv 1000

/-! Accessors used to state properties of transformed documents. -/

def docActivity (doc : XElem) : Option XElem :=
  selPath ["TrainingCenterDatabase", "Activities", "Activity"] doc

def lapOf (r : Option XElem) : Option XElem :=
  (r.bind docActivity).bind (selectElement "Lap")

def lapStartTime (r : Option XElem) : Option String :=
  (lapOf r).bind (getAttr "StartTime")

def trackpointsOf (r : Option XElem) : List XElem :=
  match (lapOf r).bind (selectElement "Track") with
  | none => []
  | some tr => tr.children.filter (fun c => c.name == "Trackpoint")

def trackpointTimes (r : Option XElem) : List (Option String) :=
  (trackpointsOf r).map (fun tp => (selectElement "Time" tp).map XElem.text)

def trackpointDists (r : Option XElem) : List (Option String) :=
  (trackpointsOf r).map (fun tp => (selectElement "DistanceMeters" tp).map XElem.text)

def totalTimeTextOf (r : Option XElem) : Option String :=
  ((lapOf r).bind (selectElement "TotalTimeSeconds")).map XElem.text

mutual

def countNamed (nm : String) : XElem → Nat
  | .node n _ _ cs => (if n == nm then 1 else 0) + countNamedList nm cs

def countNamedList (nm : String) : List XElem → Nat
  | [] => 0
  | c :: cs => countNamed nm c + countNamedList nm cs

end

def creatorNameCount (doc : XElem) : Nat :=
  match selPath ["TrainingCenterDatabase", "Activities", "Activity", "Creator"] doc with
  | none => 0
  | some cr => (cr.children.filter (fun c => c.name == "Name")).length

/-- A minimal well-formed input document, as fetched for a non-GPS activity:
the `Id` text is the activity's start timestamp. -/
def sampleDoc (idText : String) : XElem :=
  .node "#document" [] ""
    [.node "TrainingCenterDatabase" [] ""
      [.node "Activities" [] ""
        [.node "Activity" [("Sport", "Other")] ""
          [mkLeaf "Id" idText,
           .node "Creator" [("xsi:type", "Device_t")] "" [mkLeaf "UnitId" "0"]]]]]

/-- The transformed Swim document of the test scenario: start identifier
`2024-01-01T00:00:00Z`, total duration 60000 ms, distance `1000`,
calories `100`. -/
def c5Result : Option XElem :=
  injectActivityTcx (sampleDoc "2024-01-01T00:00:00Z") "Swim"
    (msToDurationSeconds 60000) "1000" "100"

/-- The same Swim scenario with a 60999 ms duration: the 999 ms are below the
divisor of the caller's `Duration/1000`. -/
def c10Result : Option XElem :=
  injectActivityTcx (sampleDoc "2024-01-01T00:00:00Z") "Swim"
    (msToDurationSeconds 60999) "1000" "100"

/-- The client configuration of the repository's `TestGetAuthURL`. -/
def testCfg : OauthConfig :=
  ⟨"test-client-id", "https://test.com/redirect", ["activity", "heartrate", "profile"]⟩

/-- Everything `getAuthURL` emits for `testCfg` before the state value. -/
def authURLHead : String :=
  "https://www.fitbit.com/oauth2/authorize?response_type=token&client_id=test-client-id&redirect_uri=https://test.com/redirect&scope=activity+heartrate+profile&code_challenge=testCodeChallenge&code_challenge_method=S256&state="

/-- The Treadmill transformation of the sample document. -/
def c6SampleResult : XElem :=
  (injectActivityTcx (sampleDoc "2024-01-01T00:00:00Z") "Treadmill" 60 "1000" "100").getD
    (sampleDoc "2024-01-01T00:00:00Z")

/-- `f` keeps the count of elements named `nm` unchanged. -/
def CountPreserving (nm : String) (f : XElem → Option XElem) : Prop :=
  ∀ e e2, f e = some e2 → countNamed nm e2 = countNamed nm e

/-- `f` keeps the tag of the element it rebuilds. -/
def NamePreserving (f : XElem → Option XElem) : Prop :=
  ∀ e e2, f e = some e2 → e2.name = e.name

/-! ## Theorems -/

theorem countNamedList_append (nm : String) (xs ys : List XElem) :
    countNamedList nm (xs ++ ys) = countNamedList nm xs + countNamedList nm ys := by
  induction xs with
  | nil => simp [countNamedList]
  | cons c cs ih => simp [countNamedList, ih]; omega

theorem countNamed_appendChild (nm : String) (c e : XElem) :
    countNamed nm (appendChild c e) = countNamed nm e + countNamed nm c := by
  cases e with
  | node n a t cs =>
    simp [appendChild, countNamed, countNamedList_append, countNamedList]
    omega

theorem updateFirst_count (nm tag : String) (f : XElem → Option XElem)
    (hf : CountPreserving nm f) :
    ∀ (cs cs2 : List XElem), updateFirst tag f cs = some cs2 →
      countNamedList nm cs2 = countNamedList nm cs := by
  intro cs
  induction cs with
  | nil => intro cs2 h; simp [updateFirst] at h
  | cons c rest ih =>
    intro cs2 h
    rw [updateFirst] at h
    split at h
    · obtain ⟨c2, hc2, rfl⟩ := Option.map_eq_some'.mp h
      simp [countNamedList, hf _ _ hc2]
    · obtain ⟨r2, hr2, rfl⟩ := Option.map_eq_some'.mp h
      simp [countNamedList, ih _ hr2]

theorem modifyChild_count (nm tag : String) (f : XElem → Option XElem)
    (hf : CountPreserving nm f) : CountPreserving nm (modifyChild tag f) := by
  intro e e2 h
  cases e with
  | node n a t cs =>
    simp only [modifyChild] at h
    obtain ⟨cs2, hcs2, rfl⟩ := Option.map_eq_some'.mp h
    simp [countNamed, updateFirst_count nm tag f hf cs cs2 hcs2]

theorem modifyPath_count (nm : String) (ps : List String) (f : XElem → Option XElem)
    (hf : CountPreserving nm f) : CountPreserving nm (modifyPath ps f) := by
  induction ps with
  | nil => simpa [modifyPath] using hf
  | cons p ps ih =>
    intro e e2 h
    exact modifyChild_count nm p _ ih e e2 h

theorem modifyPath_name (ps : List String) (f : XElem → Option XElem)
    (hf : NamePreserving f) : NamePreserving (modifyPath ps f) := by
  induction ps with
  | nil => simpa [modifyPath] using hf
  | cons p ps ih =>
    intro e e2 h
    cases e with
    | node n a t cs =>
      simp only [modifyPath, modifyChild] at h
      obtain ⟨cs2, hcs2, rfl⟩ := Option.map_eq_some'.mp h
      rfl

theorem updateFirst_find (tag : String) (f : XElem → Option XElem)
    (hf : NamePreserving f) :
    ∀ (cs cs2 : List XElem), updateFirst tag f cs = some cs2 →
      ∃ c c2, cs.find? (fun x => x.name == tag) = some c ∧ f c = some c2
        ∧ cs2.find? (fun x => x.name == tag) = some c2 := by
  intro cs
  induction cs with
  | nil => intro cs2 h; simp [updateFirst] at h
  | cons c rest ih =>
    intro cs2 h
    rw [updateFirst] at h
    split at h
    next hc =>
      obtain ⟨c2, hc2, rfl⟩ := Option.map_eq_some'.mp h
      have hc2n : (c2.name == tag) = true := by rw [hf _ _ hc2]; exact hc
      refine ⟨c, c2, ?_, hc2, ?_⟩
      · simp [List.find?, hc]
      · simp [List.find?, hc2n]
    next hc =>
      obtain ⟨r2, hr2, rfl⟩ := Option.map_eq_some'.mp h
      obtain ⟨c', c2', h1, h2, h3⟩ := ih _ hr2
      have hcf : (c.name == tag) = false := by simpa using hc
      refine ⟨c', c2', ?_, h2, ?_⟩
      · simp [List.find?, hcf, h1]
      · simp [List.find?, hcf, h3]

theorem modifyPath_selPath (ps : List String) (f : XElem → Option XElem)
    (hf : NamePreserving f) :
    ∀ (e e2 : XElem), modifyPath ps f e = some e2 →
      ∃ t t2, selPath ps e = some t ∧ f t = some t2 ∧ selPath ps e2 = some t2 := by
  induction ps with
  | nil => intro e e2 h; exact ⟨e, e2, rfl, h, rfl⟩
  | cons p ps ih =>
    intro e e2 h
    cases e with
    | node n a t cs =>
      simp only [modifyPath, modifyChild] at h
      obtain ⟨cs2, hcs2, rfl⟩ := Option.map_eq_some'.mp h
      obtain ⟨c, c2, h1, h2, h3⟩ := updateFirst_find p _ (modifyPath_name ps f hf) cs cs2 hcs2
      obtain ⟨u, u2, g1, g2, g3⟩ := ih c c2 h2
      refine ⟨u, u2, ?_, g2, ?_⟩
      · simp [selPath, selectElement, XElem.children, h1, g1]
      · simp [selPath, selectElement, XElem.children, h3, g3]

/-- C9: `convertTimestamp` on `2024-09-07T10:00:00Z` yields
`2024-09-07T10:00:30Z` for +30 s, `2024-09-07T09:59:30Z` for -30 s, and the
input unchanged for 0; an empty or malformed (not RFC-3339-parseable) input
fails with a parse error. -/
theorem c9_convertTimestamp_spec :
    convertTimestamp "2024-09-07T10:00:00Z" 30 = .ok "2024-09-07T10:00:30Z"
    ∧ convertTimestamp "2024-09-07T10:00:00Z" (-30) = .ok "2024-09-07T09:59:30Z"
    ∧ convertTimestamp "2024-09-07T10:00:00Z" 0 = .ok "2024-09-07T10:00:00Z"
    ∧ (convertTimestamp "" 0).isOk = false
    ∧ (convertTimestamp "2006-01-02T15:04:05Z07:00" 0).isOk = false
    ∧ ∀ s d, rfc3339Parse s = none → (convertTimestamp s d).isOk = false := by
  refine ⟨by decide, by decide, by decide, by decide, by decide, ?_⟩
  intro s d h
  simp [convertTimestamp, h, Except.isOk, Except.toBool]

theorem c9_convertTimestamp_spec_witness :
    (convertTimestamp "not-a-timestamp" 7).isOk = false :=
  c9_convertTimestamp_spec.2.2.2.2.2 "not-a-timestamp" 7 (by decide)

/-- C8: `generateCodeChallenge` is deterministic; the empty verifier fails
with the empty-input error; every non-empty verifier yields the
base64url-no-padding SHA-256 digest of its UTF-8 bytes, which for
`"testverifier"` is the literal digest below. -/
theorem c8_generateCodeChallenge_spec :
    (∀ v w : String, v = w → generateCodeChallenge v = generateCodeChallenge w)
    ∧ generateCodeChallenge "" = .error "error: empty codeVerifier string"
    ∧ (∀ v : String, v ≠ "" →
        generateCodeChallenge v = .ok (base64urlEncode (sha256 (strBytes v))))
    ∧ generateCodeChallenge "testverifier"
        = .ok "5ece6yyUyn-EB3AgU1LXI8kwWCmtccdYegzgbS6Shq4" := by
  refine ⟨fun v w h => by rw [h], by decide, ?_, by decide⟩
  intro v hv
  simp [generateCodeChallenge, hv]

theorem c8_generateCodeChallenge_spec_witness :
    generateCodeChallenge "abc" = generateCodeChallenge "abc"
    ∧ generateCodeChallenge "abc" = .ok (base64urlEncode (sha256 (strBytes "abc"))) :=
  ⟨c8_generateCodeChallenge_spec.1 "abc" "abc" rfl,
   c8_generateCodeChallenge_spec.2.2.1 "abc" (by decide)⟩

/-- C5: the Swim transformation with total duration 60000 ms, distance
`1000` and start identifier `2024-01-01T00:00:00Z` succeeds and produces a
`Lap` with `StartTime` `2024-01-01T00:00:00Z` and a `Track` with exactly two
`Trackpoint`s, at `2024-01-01T00:00:00Z` and `2024-01-01T00:01:00Z`, with
`DistanceMeters` `0` and `1000`. -/
theorem c5_swim_transformation_spec :
    c5Result.isSome = true
    ∧ lapStartTime c5Result = some "2024-01-01T00:00:00Z"
    ∧ (trackpointsOf c5Result).length = 2
    ∧ trackpointTimes c5Result = [some "2024-01-01T00:00:00Z", some "2024-01-01T00:01:00Z"]
    ∧ trackpointDists c5Result = [some "0", some "1000"] := by
  refine ⟨by decide, by decide, by decide, by decide, by decide⟩

/-- C4 counterexample: on a Swim document whose identifier `"garbage"` does
not parse as RFC-3339, `convertTimestamp` fails, yet `injectActivityTcx`
completes (its `tss, _ :=` discards the error): no `TimestampParseError` is
surfaced and the `Lap` is created with an empty `StartTime`. -/
theorem c4_counterexample :
    (convertTimestamp "garbage" 0).isOk = false
    ∧ (injectActivityTcx (sampleDoc "garbage") "Swim" 60 "1000" "100").isSome = true
    ∧ lapStartTime (injectActivityTcx (sampleDoc "garbage") "Swim" 60 "1000" "100")
        = some "" := by
  refine ⟨by decide, by decide, by decide⟩

/-- C4 amended: when the identifier of a Swim document does not parse as
RFC-3339, the transformation does not fail: the parse error is discarded by
`tss, _ := convertTimestamp(...)`, and the run completes with the empty
string as the `Lap` `StartTime` and as both `Trackpoint` times. -/
theorem c4_swim_unparseable_id_amended (idText : String)
    (h : rfc3339Parse idText = none) (secs : Int) (dm cal : String) :
    (injectActivityTcx (sampleDoc idText) "Swim" secs dm cal).isSome = true
    ∧ lapStartTime (injectActivityTcx (sampleDoc idText) "Swim" secs dm cal) = some ""
    ∧ trackpointTimes (injectActivityTcx (sampleDoc idText) "Swim" secs dm cal)
        = [some "", some ""] := by
  simp [injectActivityTcx, sampleDoc, modifyPath, modifyChild, updateFirst, swimPatch,
    setAttr, setFirstAttr, selectElement, mkLeaf, convertTimestamp, h, appendChild,
    lapStartTime, lapOf, docActivity, selPath, getAttr, trackpointTimes, trackpointsOf,
    XElem.name, XElem.children, XElem.attrs, XElem.text, List.find?]

theorem c4_swim_unparseable_id_amended_witness :
    (injectActivityTcx (sampleDoc "garbage") "Swim" 61 "1001" "101").isSome = true
    ∧ lapStartTime (injectActivityTcx (sampleDoc "garbage") "Swim" 61 "1001" "101") = some ""
    ∧ trackpointTimes (injectActivityTcx (sampleDoc "garbage") "Swim" 61 "1001" "101")
        = [some "", some ""] :=
  c4_swim_unparseable_id_amended "garbage" (by decide) 61 "1001" "101"

/-- C3 counterexample: an empty-token request does change session state: on a
session that already holds a token, it overwrites the stored token with the
empty string and the stored redirect-state with the request's value, so the
claim's "leaves the session state unchanged" fails. -/
theorem c3_counterexample :
    (handleTokenReceived ⟨"S", "oldtoken", "oldstate"⟩ "" "newstate").responses
        = ["No token received."]
    ∧ (handleTokenReceived ⟨"S", "oldtoken", "oldstate"⟩ "" "newstate").state
        ≠ (⟨"S", "oldtoken", "oldstate"⟩ : SessionState) := by
  refine ⟨by decide, by decide⟩

/-- C3 amended: an empty-token request is answered `"No token received."`,
invokes no fetch (and hence cannot reach the listener shutdown, which only
the fetch path triggers), and leaves the expected correlation value
`stateAuth` unchanged; however the stored token is overwritten with the empty
request token and `stateRedir` with the request's state, because the handler
assigns both before checking the token. -/
theorem c3_empty_token_amended (s : SessionState) (reqState : String) :
    (handleTokenReceived s "" reqState).responses = ["No token received."]
    ∧ (handleTokenReceived s "" reqState).fetchInvoked = false
    ∧ (handleTokenReceived s "" reqState).state.stateAuth = s.stateAuth
    ∧ (handleTokenReceived s "" reqState).state.token = ""
    ∧ (handleTokenReceived s "" reqState).state.stateRedir = reqState := by
  simp [handleTokenReceived]

theorem c3_empty_token_amended_witness :
    (handleTokenReceived ⟨"S", "oldtoken", "oldstate"⟩ "" "req").responses
        = ["No token received."]
    ∧ (handleTokenReceived ⟨"S", "oldtoken", "oldstate"⟩ "" "req").fetchInvoked = false
    ∧ (handleTokenReceived ⟨"S", "oldtoken", "oldstate"⟩ "" "req").state.stateAuth = "S"
    ∧ (handleTokenReceived ⟨"S", "oldtoken", "oldstate"⟩ "" "req").state.token = ""
    ∧ (handleTokenReceived ⟨"S", "oldtoken", "oldstate"⟩ "" "req").state.stateRedir = "req" :=
  c3_empty_token_amended ⟨"S", "oldtoken", "oldstate"⟩ "req"

/-- C2 counterexample: a non-empty-token request whose state does not match
the stored correlation state is rejected — no fetch — but the token is
nevertheless stored (the handler assigns the global before validating), so
the claim's "without any token storage effect" fails. -/
theorem c2_counterexample :
    (handleTokenReceived ⟨"S", "", ""⟩ "tok" "X").fetchInvoked = false
    ∧ (handleTokenReceived ⟨"S", "", ""⟩ "tok" "X").state.token = "tok"
    ∧ (handleTokenReceived ⟨"S", "", ""⟩ "tok" "X").state.token ≠ "" := by
  refine ⟨by decide, by decide, by decide⟩

/-- C2 amended: for a non-empty token, a request whose state equals the
stored correlation state stores the token and invokes the post-handshake
fetch-and-transform; any other state value is rejected — no fetch, no
shutdown (only the fetch path can reach `server.Shutdown`), `stateAuth`
unchanged — but the token and redirect-state globals are still overwritten
with the request's values. -/
theorem c2_state_correlation_amended (s : SessionState) (reqToken reqState : String)
    (hne : reqToken ≠ "") :
    (reqState = s.stateAuth →
      (handleTokenReceived s reqToken reqState).fetchInvoked = true
      ∧ (handleTokenReceived s reqToken reqState).state.token = reqToken)
    ∧ (reqState ≠ s.stateAuth →
      (handleTokenReceived s reqToken reqState).fetchInvoked = false
      ∧ (handleTokenReceived s reqToken reqState).state.token = reqToken
      ∧ (handleTokenReceived s reqToken reqState).state.stateAuth = s.stateAuth
      ∧ (handleTokenReceived s reqToken reqState).responses
          = ["Token received and printed to the server console.",
             "The redirect request not originated from this app."]) := by
  constructor
  · intro h
    simp [handleTokenReceived, hne, h]
  · intro h
    have h2 : ¬ s.stateAuth = reqState := fun hh => h hh.symm
    simp [handleTokenReceived, hne, h2]

theorem c2_state_correlation_amended_witness :
    (handleTokenReceived ⟨"S", "", ""⟩ "tok" "S").fetchInvoked = true
    ∧ (handleTokenReceived ⟨"S", "", ""⟩ "tok" "S").state.token = "tok" :=
  (c2_state_correlation_amended ⟨"S", "", ""⟩ "tok" "S" (by decide)).1 rfl

/-- C7: for every length L in [43,128] and every random source,
`generateCodeVerifier` succeeds with a string of exactly L characters, each
drawn from the 66-character unreserved alphabet; for every L outside
[43,128] it fails with the invalid-length error. -/
theorem c7_generateCodeVerifier_spec :
    (∀ (L : Int) (r : Nat → Nat), 43 ≤ L → L ≤ 128 →
      ∃ s, generateCodeVerifier L r = .ok s ∧ (s.length : Int) = L
        ∧ ∀ c ∈ s.data, c ∈ rfc3986Chars)
    ∧ (∀ (L : Int) (r : Nat → Nat), L < 43 ∨ 128 < L →
      generateCodeVerifier L r
        = .error "code verifier length must be between 43 and 128 characters") := by
  constructor
  · intro L r h1 h2
    have hA : ¬ (L < 43) := by omega
    have hB : ¬ (L > 128) := by omega
    refine ⟨String.mk ((List.range L.toNat).map (fun i => rfc3986Chars.getD (r i % 66) 'A')),
      by simp [generateCodeVerifier, hA, hB], ?_, ?_⟩
    · have hlen : (String.mk ((List.range L.toNat).map
          (fun i => rfc3986Chars.getD (r i % 66) 'A'))).length = L.toNat := by
        simp [String.length]
      rw [hlen]; omega
    · intro c hc
      have hc2 : c ∈ (List.range L.toNat).map (fun i => rfc3986Chars.getD (r i % 66) 'A') := hc
      obtain ⟨i, _, rfl⟩ := List.mem_map.mp hc2
      have hlt : r i % 66 < rfc3986Chars.length :=
        lt_of_lt_of_le (Nat.mod_lt _ (by decide)) (by decide)
      rw [List.getD_eq_getElem _ _ hlt]
      exact List.getElem_mem hlt
  · intro L r h
    rcases h with h | h
    · simp [generateCodeVerifier, h]
    · have hB : L > 128 := h
      simp [generateCodeVerifier, hB]

theorem c7_generateCodeVerifier_spec_witness :
    (generateCodeVerifier 43 (fun _ => 0)).isOk = true
    ∧ generateCodeVerifier 42 (fun _ => 0)
        = .error "code verifier length must be between 43 and 128 characters" := by
  constructor
  · obtain ⟨s, hs, -, -⟩ :=
      c7_generateCodeVerifier_spec.1 43 (fun _ => 0) (by decide) (by decide)
    rw [hs]; rfl
  · exact c7_generateCodeVerifier_spec.2 42 (fun _ => 0) (Or.inl (by decide))

/-- C1 counterexample: for the test configuration, the URL built by
`getAuthURL` carries the redirect URL verbatim: its raw `redirect_uri`
parameter is `https://test.com/redirect` and not the URL-encoded
`https%3A%2F%2Ftest.com%2Fredirect`, so the produced query parameters are not
the URL-encoded values the claim lists. -/
theorem c1_counterexample :
    rawQueryParam (getAuthURL "testCodeChallenge" testCfg "state0") "redirect_uri"
        = some "https://test.com/redirect"
    ∧ queryEscape "https://test.com/redirect" = "https%3A%2F%2Ftest.com%2Fredirect"
    ∧ ("https://test.com/redirect" : String) ≠ "https%3A%2F%2Ftest.com%2Fredirect" := by
  refine ⟨by decide, by decide, by decide⟩

/-- C1 amended: `getAuthURL` interpolates the client id and redirect URL
verbatim (no URL encoding is applied).  For clientId `test-client-id`,
redirectUrl `https://test.com/redirect`, scopes
`activity, heartrate, profile` and challenge `testCodeChallenge`, the URL is
a fixed head followed by the generated state, and its raw query parameters
are `response_type=token`, `client_id=test-client-id`,
`redirect_uri=https://test.com/redirect` (the unencoded redirect URL),
`scope=activity+heartrate+profile` (scopes joined with `+`, trailing
separator stripped), `code_challenge=testCodeChallenge`,
`code_challenge_method=S256`, and `state` carrying the generated value;
an empty scope list yields an empty scope string rather than an error. -/
theorem c1_authurl_amended :
    (∀ st : String, getAuthURL "testCodeChallenge" testCfg st = authURLHead ++ st)
    ∧ rawQueryParam (authURLHead ++ "STATE0") "response_type" = some "token"
    ∧ rawQueryParam (authURLHead ++ "STATE0") "client_id" = some "test-client-id"
    ∧ rawQueryParam (authURLHead ++ "STATE0") "redirect_uri" = some "https://test.com/redirect"
    ∧ rawQueryParam (authURLHead ++ "STATE0") "scope" = some "activity+heartrate+profile"
    ∧ rawQueryParam (authURLHead ++ "STATE0") "code_challenge" = some "testCodeChallenge"
    ∧ rawQueryParam (authURLHead ++ "STATE0") "code_challenge_method" = some "S256"
    ∧ rawQueryParam (authURLHead ++ "STATE0") "state" = some "STATE0"
    ∧ scopeStringBuilder [] = "" := by
  refine ⟨fun st => rfl, by decide, by decide, by decide, by decide, by decide, by decide,
    by decide, by decide⟩

theorem c1_authurl_amended_witness :
    getAuthURL "testCodeChallenge" testCfg "STATEX" = authURLHead ++ "STATEX" :=
  c1_authurl_amended.1 "STATEX"

/-- C10: the duration handed to `injectActivityTcx` is the millisecond
duration divided by 1000 with truncating integer division — any sub-second
part is silently discarded (60999 ms behaves exactly as 60000 ms) — so the
Swim `TotalTimeSeconds` text is the whole-second count (`60`, never
fractional) and the synthetic end point's timestamp carries no sub-second
component. -/
theorem c10_duration_truncation_spec :
    (∀ q r : Int, 0 ≤ q → 0 ≤ r → r < 1000 → msToDurationSeconds (1000 * q + r) = q)
    ∧ msToDurationSeconds 60999 = 60
    ∧ c10Result = c5Result
    ∧ totalTimeTextOf c10Result = some "60"
    ∧ trackpointTimes c10Result
        = [some "2024-01-01T00:00:00Z", some "2024-01-01T00:01:00Z"] := by
  refine ⟨?_, by decide, rfl, by decide, by decide⟩
  intro q r hq hr hr2
  unfold msToDurationSeconds
  rw [Int.tdiv_eq_ediv (by omega) (by omega)]
  omega

theorem c10_duration_truncation_spec_witness :
    msToDurationSeconds (1000 * 60 + 999) = 60 :=
  c10_duration_truncation_spec.1 60 999 (by decide) (by decide) (by decide)

/-- C6: transforming any document with activity category `Treadmill` or
`Weights` adds exactly one device-name (`Name`) element under the `Creator`
element, and adds no `Lap` and no `Track` element anywhere in the
document. -/
theorem c6_treadmill_weights_spec (doc : XElem) (actName : String) (secs : Int)
    (dm cal : String) (hact : actName = "Treadmill" ∨ actName = "Weights")
    (doc2 : XElem) (h : injectActivityTcx doc actName secs dm cal = some doc2) :
    creatorNameCount doc2 = creatorNameCount doc + 1
    ∧ countNamed "Lap" doc2 = countNamed "Lap" doc
    ∧ countNamed "Track" doc2 = countNamed "Track" doc := by
  have hns : (actName == "Swim") = false := by
    rcases hact with rfl | rfl <;> decide
  have htw : (actName == "Treadmill" || actName == "Weights") = true := by
    rcases hact with rfl | rfl <;> decide
  rw [injectActivityTcx] at h
  simp only [hns, htw, Bool.false_eq_true, if_false, if_true] at h
  have hnp : NamePreserving (fun cr => some (appendChild (mkLeaf "Name" "Fitbit") cr)) := by
    intro e e2 hh
    injection hh with hh2
    subst hh2
    cases e with
    | node n a t cs => rfl
  refine ⟨?_, ?_, ?_⟩
  · obtain ⟨t, t2, h1, h2, h3⟩ := modifyPath_selPath _ _ hnp _ _ h
    injection h2 with h2
    subst h2
    rw [creatorNameCount, creatorNameCount, h1, h3]
    cases t with
    | node n a tt cs =>
      simp [appendChild, XElem.children, mkLeaf, List.filter_append, XElem.name]
  · exact modifyPath_count "Lap" _ _ (by
      intro e e2 hh
      injection hh with hh2
      subst hh2
      rw [countNamed_appendChild]
      simp [mkLeaf, countNamed, countNamedList]) _ _ h
  · exact modifyPath_count "Track" _ _ (by
      intro e e2 hh
      injection hh with hh2
      subst hh2
      rw [countNamed_appendChild]
      simp [mkLeaf, countNamed, countNamedList]) _ _ h

theorem c6_treadmill_weights_spec_witness :
    creatorNameCount c6SampleResult
        = creatorNameCount (sampleDoc "2024-01-01T00:00:00Z") + 1
    ∧ countNamed "Lap" c6SampleResult = countNamed "Lap" (sampleDoc "2024-01-01T00:00:00Z")
    ∧ countNamed "Track" c6SampleResult
        = countNamed "Track" (sampleDoc "2024-01-01T00:00:00Z") :=
  c6_treadmill_weights_spec (sampleDoc "2024-01-01T00:00:00Z") "Treadmill" 60 "1000" "100"
    (Or.inl rfl) c6SampleResult rfl

end FitbitTcx
